import Mathlib

/-!
Shallow embedding of the admission-controller pod-mutation engine
(src/images/admission-controller/src/aws_orbit_admission_controller/pod.py).

Python dictionaries with string keys are embedded as association lists
(List (String x String)); JSON documents (Pod, Container, PodSetting,
NamespaceSetting) are embedded as structures whose optional keys are Option
fields.  External libraries are embedded as oracle parameters: the compiled
regular expression and the jsonpath engine are fields of the Matchers
structure, the control-plane client results are fields of ApiEnv, and the
jsonpatch diff is modelled by its observable contract (empty patch iff the
two documents are equal).  Mutation of Python dictionaries is embedded as
explicit state passing: functions that mutate the pod-setting spec, the pod
or a container return the updated values, and an uncaught Python exception
is an explicit error component of the result.
-/

/-- One entry of a container env list; the source reads the name key and the
injectUserContext branch writes name and value keys. -/
structure EnvVar where
  name : String
  value : String
deriving DecidableEq, Repr

/-- One entry of a name-keyed list (volumes, volumeMounts); the source reads
only the name key, the rest of the entry is opaque payload. -/
structure NamedItem where
  name : String
  payload : String
deriving DecidableEq, Repr

/-- One matchExpressions entry of a podSelector. -/
structure MatchExpression where
  key : String
  operator : String
  values : List String
deriving DecidableEq, Repr

/-- The podSelector of a PodSetting spec. -/
structure PodSelector where
  matchLabels : Option (List (String × String))
  matchExpressions : Option (List MatchExpression)
deriving DecidableEq, Repr

/-- The containerSelector of a PodSetting spec: the source checks for a
regex key, else a jsonpath key (an elif, so one of the two applies). -/
inductive ContainerSelector where
  | regexSel (pattern : String)
  | jsonpathSel (expr : String)
deriving DecidableEq, Repr

/-- The spec of a PodSetting resource: every override field the source
reads, each optional because the source guards each merge with a key-presence
test. -/
structure PodSettingSpec where
  podSelector : PodSelector
  containerSelector : Option ContainerSelector
  serviceAccountName : Option String
  labels : Option (List (String × String))
  annotations : Option (List (String × String))
  nodeSelector : Option (List (String × String))
  securityContext : Option (List (String × String))
  volumes : Option (List NamedItem)
  image : Option String
  imagePullPolicy : Option String
  lifecycle : Option (List (String × String))
  command : Option (List String)
  args : Option (List String)
  env : Option (List EnvVar)
  envFrom : Option (List String)
  volumeMounts : Option (List NamedItem)
  injectUserContext : Option Bool
deriving DecidableEq, Repr

/-- A PodSetting resource: metadata namespace and name plus the spec. -/
structure PodSetting where
  namespaceName : String
  name : String
  spec : PodSettingSpec
deriving DecidableEq, Repr

/-- A container document: the fields the source reads or writes.  A missing
name key is read with default empty string, so name is total; the other
fields are optional keys. -/
structure Container where
  name : String
  image : Option String
  imagePullPolicy : Option String
  lifecycle : Option (List (String × String))
  command : Option (List String)
  args : Option (List String)
  env : Option (List EnvVar)
  envFrom : Option (List String)
  volumeMounts : Option (List NamedItem)
deriving DecidableEq, Repr

/-- Pod metadata: the fields the source reads or writes. -/
structure PodMetadata where
  labels : Option (List (String × String))
  annotations : Option (List (String × String))
deriving DecidableEq, Repr

/-- Pod spec: the fields the source reads or writes. -/
structure PodSpec where
  serviceAccountName : Option String
  nodeSelector : Option (List (String × String))
  securityContext : Option (List (String × String))
  volumes : Option (List NamedItem)
  initContainers : List Container
  containers : List Container
deriving DecidableEq, Repr

/-- A pod document. -/
structure Pod where
  metadata : PodMetadata
  spec : PodSpec
deriving DecidableEq, Repr

/-- The spec of a NamespaceSetting resource: team, user and email. -/
structure NamespaceSetting where
  team : String
  user : String
  email : String
deriving DecidableEq, Repr

/-- Oracles embedding the external regex and jsonpath libraries: regexMatch
embeds re.compile(pattern).match(name) as a Boolean, jpFindPod and jpFindSpec
embed the name values produced by jsonpath_ng.parse(expr).find(doc) for the
two document shapes the source passes. -/
structure Matchers where
  regexMatch : String → String → Bool
  jpFindPod : String → Pod → List String
  jpFindSpec : String → PodSpec → List String

/-- Lookup in an embedded Python dictionary: value of the first entry with
the given key. -/
def dictLookup (m : List (String × String)) (k : String) : Option String :=
  (m.find? (fun p => p.1 == k)).map Prod.snd

/-- Update of one entry by the overriding dictionary: the value of the
overriding dictionary wins when the key is present there. -/
def dictUpd (b : List (String × String)) (p : String × String) : String × String :=
  match dictLookup b p.1 with
  | some v => (p.1, v)
  | none => p

/-- Embedding of the Python dict merge of two dicts a and b: keys of a
in order with values updated from b, then keys of b absent from a in order. -/
def dictMerge (a b : List (String × String)) : List (String × String) :=
  a.map (dictUpd b) ++ b.filter (fun p => (dictLookup a p.1).isNone)

/-- The name-keyed replace-or-append merge the source uses for volumes, env
and volumeMounts: drop old entries whose name occurs among the new names,
then append all new entries. -/
def nameMerge {α : Type} (name : α → String) (old new : List α) : List α :=
  old.filter (fun x => !((new.map name).contains (name x))) ++ new

/-- Well-formedness of an embedded dictionary: Python dictionaries cannot
hold two entries with the same key. -/
def WFMap (m : List (String × String)) : Prop :=
  (m.map Prod.fst).Nodup

/-- Embedding of filter_pod_settings.  In the source the two selector loops
end each iteration with a continue statement that is the last statement of
the inner loop body, so they never exclude the pod-setting from the outer
loop; the only condition that skips a pod-setting is the metadata namespace
test.  The function therefore reduces to a namespace filter. -/
def filter_pod_settings (pod_settings : List PodSetting) (ns : String) (_pod : Pod) :
    List PodSetting :=
  pod_settings.filter (fun s => s.namespaceName == ns)

/-- Modelled from the spec: the intended podSelector semantics of section 4.4,
against which the source loop is compared.  All matchLabels entries must
equal the corresponding pod label and all matchExpressions must evaluate
true (Exists, NotExists, In, NotIn against the pod label map); an operator
outside that set does not evaluate true. -/
def selectorMatches (sel : PodSelector) (podLabels : List (String × String)) : Bool :=
  (sel.matchLabels.getD []).all (fun kv => dictLookup podLabels kv.1 == some kv.2) &&
  (sel.matchExpressions.getD []).all (fun me =>
    let v := dictLookup podLabels me.key
    match me.operator with
    | "Exists" => v.isSome
    | "NotExists" => v.isNone
    | "In" => match v with | some x => me.values.contains x | none => false
    | "NotIn" => match v with | some x => !(me.values.contains x) | none => true
    | _ => false)

/-- The pointwise container-selection predicate of filter_pod_containers:
the regex branch compiles the pattern (a bare star means match-all) and
keeps containers whose name matches; the jsonpath branch keeps containers
whose name occurs among the values found in the document; an empty selector
keeps nothing.  jpNames embeds the jsonpath find over the document the
caller passes. -/
def containerPred (m : Matchers) (jpNames : String → List String)
    (sel : Option ContainerSelector) (c : Container) : Bool :=
  match sel with
  | none => false
  | some (.regexSel pat) => if pat = "*" then true else m.regexMatch pat c.name
  | some (.jsonpathSel expr) => (jpNames expr).contains c.name

/-- Embedding of filter_pod_containers as the filter by the pointwise
predicate. -/
def filter_pod_containers (m : Matchers) (containers : List Container)
    (jpNames : String → List String) (sel : Option ContainerSelector) : List Container :=
  containers.filter (containerPred m jpNames sel)

/-- Result of applying a pod-setting to one container: the (possibly
mutated) pod-setting spec, the (possibly partially) updated container and
the uncaught exception, if one was raised. -/
structure ContainerResult where
  ps : PodSettingSpec
  container : Container
  err : Option String
deriving DecidableEq, Repr

/-- The injectUserContext block of apply_settings_to_container: when the
flag is set, the env list of the pod-setting spec itself is rewritten in
place, dropping previous USERNAME and USEREMAIL entries and appending new
ones built from the namespace-setting user and email. -/
def injectStep (nss : NamespaceSetting) (ps : PodSettingSpec) : PodSettingSpec :=
  if ps.injectUserContext.getD false then
    let kept := (ps.env.getD []).filter
      (fun e => !(e.name == "USERNAME" || e.name == "USEREMAIL"))
    { ps with env := some (kept ++ [⟨"USERNAME", nss.user⟩, ⟨"USEREMAIL", nss.email⟩]) }
  else ps

/-- The replace and shallow-merge block of apply_settings_to_container:
image, imagePullPolicy, lifecycle, command and args, in source order. -/
def mergeScalars (ps : PodSettingSpec) (c : Container) : Container :=
  let c := match ps.image with
    | some v => { c with image := some v }
    | none => c
  let c := match ps.imagePullPolicy with
    | some v => { c with imagePullPolicy := some v }
    | none => c
  let c := match ps.lifecycle with
    | some l => { c with lifecycle := some (dictMerge (c.lifecycle.getD []) l) }
    | none => c
  let c := match ps.command with
    | some v => { c with command := some v }
    | none => c
  match ps.args with
  | some v => { c with args := some v }
  | none => c

/-- The env merge block of apply_settings_to_container: name-keyed
replace-or-append into the container env list. -/
def mergeEnv (ps : PodSettingSpec) (c : Container) : Container :=
  match ps.env with
  | some es => { c with env := some (nameMerge EnvVar.name (c.env.getD []) es) }
  | none => c

/-- The volumeMounts merge block of apply_settings_to_container: name-keyed
replace-or-append into the container volumeMounts list. -/
def mergeVolumeMounts (ps : PodSettingSpec) (c : Container) : Container :=
  match ps.volumeMounts with
  | some vms => { c with volumeMounts := some (nameMerge NamedItem.name (c.volumeMounts.getD []) vms) }
  | none => c

/-- The envFrom block followed by the volumeMounts block: the envFrom extend
reads the container envFrom key without a default, so a container lacking
the key raises a KeyError and the volumeMounts block is never reached. -/
def mergeEnvFromAndVolumeMounts (ps : PodSettingSpec) (c : Container) : ContainerResult :=
  match ps.envFrom with
  | some efs =>
    match c.envFrom with
    | none => ⟨ps, c, some "KeyError: envFrom"⟩
    | some cur => ⟨ps, mergeVolumeMounts ps { c with envFrom := some (cur ++ efs) }, none⟩
  | none => ⟨ps, mergeVolumeMounts ps c, none⟩

/-- Embedding of apply_settings_to_container: the injectUserContext mutation
of the pod-setting spec, then the container merges in source order, stopping
at the first uncaught exception. -/
def apply_settings_to_container (nss : NamespaceSetting) (ps0 : PodSettingSpec)
    (c : Container) : ContainerResult :=
  let ps := injectStep nss ps0
  mergeEnvFromAndVolumeMounts ps (mergeEnv ps (mergeScalars ps c))

/-- Result of a container loop: the threaded pod-setting spec, the updated
container list and the first uncaught exception, if any. -/
structure ContainersResult where
  ps : PodSettingSpec
  containers : List Container
  err : Option String
deriving DecidableEq, Repr

/-- The per-setting container loop: iterate over the containers in order,
applying the setting to each selected container (the source iterates over
the filtered sublist, mutating containers in place; the embedding maps over
the full list, transforming exactly the selected ones).  An exception from
one container aborts the loop, leaving later containers untouched. -/
def applyToContainers (nss : NamespaceSetting) (ps : PodSettingSpec)
    (pred : Container → Bool) : List Container → ContainersResult
  | [] => ⟨ps, [], none⟩
  | c :: rest =>
    if pred c then
      let r := apply_settings_to_container nss ps c
      match r.err with
      | some e => ⟨r.ps, r.container :: rest, some e⟩
      | none =>
        let rr := applyToContainers nss r.ps pred rest
        ⟨rr.ps, r.container :: rr.containers, rr.err⟩
    else
      let rr := applyToContainers nss ps pred rest
      ⟨rr.ps, c :: rr.containers, rr.err⟩

/-- The pod-level merge block of apply_settings_to_pod, in source order:
serviceAccountName replace, labels, annotations, nodeSelector and
securityContext dict merges, volumes name-keyed replace-or-append. -/
def podLevelMerge (ps : PodSettingSpec) (pod : Pod) : Pod :=
  let pod := match ps.serviceAccountName with
    | some v => { pod with spec := { pod.spec with serviceAccountName := some v } }
    | none => pod
  let pod := match ps.labels with
    | some l => { pod with metadata :=
        { pod.metadata with labels := some (dictMerge (pod.metadata.labels.getD []) l) } }
    | none => pod
  let pod := match ps.annotations with
    | some l => { pod with metadata :=
        { pod.metadata with annotations := some (dictMerge (pod.metadata.annotations.getD []) l) } }
    | none => pod
  let pod := match ps.nodeSelector with
    | some l => { pod with spec :=
        { pod.spec with nodeSelector := some (dictMerge (pod.spec.nodeSelector.getD []) l) } }
    | none => pod
  let pod := match ps.securityContext with
    | some l => { pod with spec :=
        { pod.spec with securityContext := some (dictMerge (pod.spec.securityContext.getD []) l) } }
    | none => pod
  match ps.volumes with
  | some vs => { pod with spec :=
      { pod.spec with volumes := some (nameMerge NamedItem.name (pod.spec.volumes.getD []) vs) } }
  | none => pod

/-- Result of applying one pod-setting to a pod. -/
structure PodApplyResult where
  ps : PodSettingSpec
  pod : Pod
  err : Option String
deriving DecidableEq, Repr

/-- Embedding of apply_settings_to_pod: the pod-level merges, then the
init-container loop (jsonpath selection evaluated against the pod spec
document, as in the source), then the container loop (jsonpath selection
evaluated against the whole pod document).  An exception from the
init-container loop aborts before the container loop runs. -/
def apply_settings_to_pod (m : Matchers) (nss : NamespaceSetting)
    (ps : PodSettingSpec) (pod : Pod) : PodApplyResult :=
  let pod := podLevelMerge ps pod
  let sel := ps.containerSelector
  let initPred := containerPred m (fun e => m.jpFindSpec e pod.spec) sel
  let r1 := applyToContainers nss ps initPred pod.spec.initContainers
  let pod := { pod with spec := { pod.spec with initContainers := r1.containers } }
  match r1.err with
  | some e => ⟨r1.ps, pod, some e⟩
  | none =>
    let contPred := containerPred m (fun e => m.jpFindPod e pod) sel
    let r2 := applyToContainers nss r1.ps contPred pod.spec.containers
    ⟨r2.ps, { pod with spec := { pod.spec with containers := r2.containers } }, r2.err⟩

/-- The base64 alphabet used by the standard encoding. -/
def base64Alphabet : List Char :=
  "ABCDEFGHIJKLMNOPQRSTUVWXYZabcdefghijklmnopqrstuvwxyz0123456789+/".toList

/-- One base64 output character for a 6-bit value. -/
def b64char (n : Nat) : Char :=
  base64Alphabet.getD n 'A'

/-- Standard base64 encoding of a byte list, with padding. -/
def b64encodeBytes : List Nat → List Char
  | [] => []
  | [a] => [b64char (a / 4), b64char (a % 4 * 16), '=', '=']
  | [a, b] => [b64char (a / 4), b64char (a % 4 * 16 + b / 16), b64char (b % 16 * 4), '=']
  | a :: b :: c :: rest =>
    b64char (a / 4) :: b64char (a % 4 * 16 + b / 16) ::
      b64char (b % 16 * 4 + c / 64) :: b64char (c % 64) :: b64encodeBytes rest

/-- Embedding of base64.b64encode over the UTF-8 bytes of a string. -/
def b64encode (s : String) : String :=
  String.mk (b64encodeBytes (s.toUTF8.toList.map UInt8.toNat))

/-- One RFC 6902 patch operation; the value payload is opaque. -/
structure PatchOp where
  op : String
  path : String
  value : String
deriving DecidableEq, Repr

/-- Serialization of one patch operation, embedding the JSON dump the
jsonpatch library performs when the patch object is converted to a string. -/
def patchOpToString (p : PatchOp) : String :=
  "\x7b\"op\": \"" ++ p.op ++ "\", \"path\": \"" ++ p.path ++
    "\", \"value\": \"" ++ p.value ++ "\"\x7d"

/-- Serialization of a patch, embedding str(patch) of the jsonpatch
library: the JSON dump of the operation list. -/
def patchToString (ops : List PatchOp) : String :=
  "[" ++ String.intercalate ", " (ops.map patchOpToString) ++ "]"

/-- A JSON value appearing in the webhook response object. -/
inductive RespVal where
  | b (v : Bool)
  | s (v : String)
deriving DecidableEq, Repr

/-- Lookup of a key in the embedded response object. -/
def respLookup (r : List (String × RespVal)) (k : String) : Option RespVal :=
  (r.find? (fun p => p.1 == k)).map Prod.snd

/-- Embedding of get_response: the response object built by the source (the
flask jsonify envelope that wraps it under a response key is serialization
glue outside the embedding).  The Python truthiness test on the patch
argument is false for None and for an empty patch, so only a present,
non-empty patch produces the patch fields; note the source writes the
patch-type key in all lower case. -/
def get_response (uid : String) (patch : Option (List PatchOp)) : List (String × RespVal) :=
  match patch with
  | some ops =>
    if ops.isEmpty then
      [("allowed", .b true), ("uid", .s uid)]
    else
      [("allowed", .b true), ("uid", .s uid),
        ("patch", .s (b64encode (patchToString ops))),
        ("patchtype", .s "JSONPatch")]
  | none => [("allowed", .b true), ("uid", .s uid)]

/-- Embedding of jsonpatch.JsonPatch.from_diff by its observable contract:
the diff of two equal documents is the empty operation list, and the diff of
two different documents is a non-empty operation list. -/
def from_diff (a b : Pod) : List PatchOp :=
  if a = b then [] else [⟨"replace", "/", "diff"⟩]

/-- Result of the control-plane lookup of a NamespaceSetting by name: found,
a NotFoundError (the only exception get_namespace_setting catches) or
another client exception. -/
inductive NsLookupResult where
  | found (s : NamespaceSetting)
  | notFound
  | apiError (msg : String)
deriving DecidableEq, Repr

/-- The control-plane environment of one request: the result the PodSetting
list call would produce (a list or a raised client exception) and the result
of the NamespaceSetting lookup for each name. -/
structure ApiEnv where
  matchers : Matchers
  podSettingsResult : Except String (List PodSetting)
  nsLookup : String → NsLookupResult

/-- An admission request: uid, namespace, dryRun flag (absent means false)
and the pod object. -/
structure AdmissionRequest where
  uid : String
  namespaceName : String
  dryRun : Bool
  object : Pod

/-- Observable side effects of one request: a PodSetting list fetch (cache
population), a NamespaceSetting lookup, and the application of one
pod-setting to the pod copy. -/
inductive Effect where
  | fetchPodSettings
  | lookupNamespaceSetting (ns name : String)
  | applySetting (name : String)
deriving DecidableEq, Repr

/-- The fixed system namespace in which NamespaceSetting objects live. -/
def ORBIT_SYSTEM_NAMESPACE : String := "orbit-system"

/-- Embedding of get_pod_settings: the list call against the control plane,
which may raise a client exception. -/
def get_pod_settings (env : ApiEnv) : Except String (List PodSetting) :=
  env.podSettingsResult

/-- Embedding of get_namespace_setting: a NotFoundError is caught and
converted to None; any other client exception propagates. -/
def get_namespace_setting (env : ApiEnv) (name : String) :
    Except String (Option NamespaceSetting) :=
  match env.nsLookup name with
  | .found s => .ok (some s)
  | .notFound => .ok none
  | .apiError m => .error m

/-- The per-request pod-setting loop of process_request, inside its try
block: apply each selected pod-setting in list order to the pod copy; the
first exception is caught (and logged) at the enclosing except clause, which
is outside the loop, so it also ends the loop: the partially modified pod is
kept and later pod-settings are not applied.  Returns the resulting pod and
the names of the pod-settings whose application was attempted. -/
def applySettingsLoop (m : Matchers) (nss : NamespaceSetting) :
    List PodSetting → Pod → Pod × List String
  | [], pod => (pod, [])
  | s :: rest, pod =>
    let r := apply_settings_to_pod m nss s.spec pod
    match r.err with
    | some _ => (r.pod, [s.name])
    | none =>
      let (pod2, names) := applySettingsLoop m nss rest r.pod
      (pod2, s.name :: names)

/-- Result of process_request when no exception escapes: the response
object, the pod-setting cache after the request, and the observable
effects in order. -/
structure ProcResult where
  response : List (String × RespVal)
  cache : Option (List PodSetting)
  effects : List Effect
deriving DecidableEq, Repr

/-- Embedding of process_request.  A dry run answers immediately with no
patch and no control-plane access.  Otherwise the process-wide pod-setting
cache is populated on first use (a raised client exception escapes), the
NamespaceSetting named by the request namespace is fetched from the fixed
system namespace (a client exception other than NotFoundError escapes; a
miss answers allow with no patch), the cached pod-settings are filtered by
the team namespace, the selected ones are applied inside a try block whose
except clause swallows the first exception, and the diff between the
original and the modified pod is returned as the patch.  The in-place
mutation of cached pod-setting specs by the injectUserContext branch is not
threaded back into the cache value here; it is treated at the level of
apply_settings_to_pod, where the returned spec exhibits it. -/
def process_request (env : ApiEnv) (cache : Option (List PodSetting))
    (req : AdmissionRequest) : Except String ProcResult :=
  if req.dryRun then
    .ok ⟨get_response req.uid none, cache, []⟩
  else
    let pod := req.object
    match cache with
    | some psl => process_request_after_cache env (some psl) psl [] req pod
    | none =>
      match get_pod_settings env with
      | .error m => .error m
      | .ok psl => process_request_after_cache env (some psl) psl [.fetchPodSettings] req pod
where
  /-- The remainder of process_request once the cache is populated. -/
  process_request_after_cache (env : ApiEnv) (cache2 : Option (List PodSetting))
      (psl : List PodSetting) (eff : List Effect) (req : AdmissionRequest) (pod : Pod) :
      Except String ProcResult :=
    let eff := eff ++ [Effect.lookupNamespaceSetting ORBIT_SYSTEM_NAMESPACE req.namespaceName]
    match get_namespace_setting env req.namespaceName with
    | .error m => .error m
    | .ok none => .ok ⟨get_response req.uid none, cache2, eff⟩
    | .ok (some nss) =>
      let team_pod_settings := filter_pod_settings psl nss.team pod
      let (modified_pod, applied) := applySettingsLoop env.matchers nss team_pod_settings pod
      let patch := from_diff pod modified_pod
      .ok ⟨get_response req.uid (some patch), cache2, eff ++ applied.map Effect.applySetting⟩

/-- Field-wise characterization of the total part of the container merge:
the form apply_settings_to_container gives a container when no exception is
raised (envFrom handled separately). -/
def contMerge (ps : PodSettingSpec) (c : Container) : Container where
  name := c.name
  image := match ps.image with | some v => some v | none => c.image
  imagePullPolicy := match ps.imagePullPolicy with | some v => some v | none => c.imagePullPolicy
  lifecycle := match ps.lifecycle with
    | some l => some (dictMerge (c.lifecycle.getD []) l)
    | none => c.lifecycle
  command := match ps.command with | some v => some v | none => c.command
  args := match ps.args with | some v => some v | none => c.args
  env := match ps.env with
    | some es => some (nameMerge EnvVar.name (c.env.getD []) es)
    | none => c.env
  envFrom := c.envFrom
  volumeMounts := match ps.volumeMounts with
    | some vms => some (nameMerge NamedItem.name (c.volumeMounts.getD []) vms)
    | none => c.volumeMounts

/-- Field-wise characterization of the container merge when the envFrom
extend raises: everything before the envFrom block is applied, the
volumeMounts block is not reached. -/
def contMergeNoVM (ps : PodSettingSpec) (c : Container) : Container where
  name := c.name
  image := match ps.image with | some v => some v | none => c.image
  imagePullPolicy := match ps.imagePullPolicy with | some v => some v | none => c.imagePullPolicy
  lifecycle := match ps.lifecycle with
    | some l => some (dictMerge (c.lifecycle.getD []) l)
    | none => c.lifecycle
  command := match ps.command with | some v => some v | none => c.command
  args := match ps.args with | some v => some v | none => c.args
  env := match ps.env with
    | some es => some (nameMerge EnvVar.name (c.env.getD []) es)
    | none => c.env
  envFrom := c.envFrom
  volumeMounts := c.volumeMounts

/-- Field-wise characterization of the pod-level merge of
apply_settings_to_pod. -/
def podMergeChar (ps : PodSettingSpec) (pod : Pod) : Pod where
  metadata :=
    { labels := match ps.labels with
        | some l => some (dictMerge (pod.metadata.labels.getD []) l)
        | none => pod.metadata.labels
      annotations := match ps.annotations with
        | some l => some (dictMerge (pod.metadata.annotations.getD []) l)
        | none => pod.metadata.annotations }
  spec :=
    { serviceAccountName := match ps.serviceAccountName with
        | some v => some v
        | none => pod.spec.serviceAccountName
      nodeSelector := match ps.nodeSelector with
        | some l => some (dictMerge (pod.spec.nodeSelector.getD []) l)
        | none => pod.spec.nodeSelector
      securityContext := match ps.securityContext with
        | some l => some (dictMerge (pod.spec.securityContext.getD []) l)
        | none => pod.spec.securityContext
      volumes := match ps.volumes with
        | some vs => some (nameMerge NamedItem.name (pod.spec.volumes.getD []) vs)
        | none => pod.spec.volumes
      initContainers := pod.spec.initContainers
      containers := pod.spec.containers }

/-- An empty pod selector. -/
def emptySelector : PodSelector := ⟨none, none⟩

/-- A pod-setting spec with no override field set. -/
def basePodSettingSpec : PodSettingSpec :=
  ⟨emptySelector, none, none, none, none, none, none, none, none, none, none, none,
    none, none, none, none, none⟩

/-- A container named main with no optional key present. -/
def baseContainer : Container := ⟨"main", none, none, none, none, none, none, none, none⟩

/-- A pod with no labels, no optional spec key and no container. -/
def basePod : Pod := ⟨⟨none, none⟩, ⟨none, none, none, none, [], []⟩⟩

/-- A namespace-setting for team-a. -/
def baseNss : NamespaceSetting := ⟨"team-a", "alice", "a@x.com"⟩

/-- Trivial matcher oracles for concrete evaluations: the regex oracle
rejects everything (the match-all star pattern bypasses it) and the jsonpath
oracle finds nothing. -/
def trivialMatchers : Matchers := ⟨fun _ _ => false, fun _ _ => [], fun _ _ => []⟩

/-- C1 fixture: a pod-setting in team-a whose matchLabels requires app = ml. -/
def psSettingC1 : PodSetting :=
  ⟨"team-a", "ps1",
    { basePodSettingSpec with podSelector := ⟨some [("app", "ml")], none⟩ }⟩

/-- C2 fixture: an environment whose NamespaceSetting lookup raises a client
exception that is not a NotFoundError. -/
def envBadLookup : ApiEnv := ⟨trivialMatchers, .ok [], fun _ => .apiError "boom"⟩

/-- C2 fixture: a non-dry-run request for an empty pod. -/
def reqC2 : AdmissionRequest := ⟨"uid-2", "ns-a", false, basePod⟩

/-- C3 fixture: a pod-setting whose envFrom extend raises on a container
lacking the envFrom key, after its pod-level label merge already ran. -/
def psFailC3 : PodSetting :=
  ⟨"team-a", "s1",
    { basePodSettingSpec with
        containerSelector := some (.regexSel "*"),
        labels := some [("s1lab", "yes")],
        envFrom := some ["cm1"] }⟩

/-- C3 fixture: a later pod-setting that only merges a pod label. -/
def psSecondC3 : PodSetting :=
  ⟨"team-a", "s2", { basePodSettingSpec with labels := some [("s2lab", "yes")] }⟩

/-- C3 fixture: a pod with one container lacking the envFrom key. -/
def podOneContainer : Pod := ⟨⟨none, none⟩, ⟨none, none, none, none, [], [baseContainer]⟩⟩

/-- C4 fixture: a pod-setting with an envFrom override selecting every
container. -/
def psC4 : PodSettingSpec :=
  { basePodSettingSpec with
      containerSelector := some (.regexSel "*"),
      envFrom := some ["cm"] }

/-- C4 fixture: a pod with one container holding an empty envFrom list. -/
def podC4 : Pod :=
  ⟨⟨none, none⟩, ⟨none, none, none, none, [], [{ baseContainer with envFrom := some [] }]⟩⟩

/-- C5 fixture: a pod-setting with injectUserContext set and no env list. -/
def psC5 : PodSettingSpec := { basePodSettingSpec with injectUserContext := some true }

/-- C6 fixture: a pod-setting whose env override itself holds two entries
with the same name. -/
def psC6 : PodSettingSpec :=
  { basePodSettingSpec with
      containerSelector := some (.regexSel "*"),
      env := some [⟨"A", "1"⟩, ⟨"A", "2"⟩] }

/-- C9 fixture: a one-operation patch. -/
def patchC9 : List PatchOp := [⟨"add", "/metadata/labels/injected", "true"⟩]

/-- C7 fixture: a dry-run request. -/
def reqDry : AdmissionRequest := ⟨"uid-7", "team-a", true, basePod⟩

/-- C8 fixture: an environment whose NamespaceSetting lookup misses. -/
def envNotFound : ApiEnv := ⟨trivialMatchers, .ok [], fun _ => .notFound⟩

/-- C2 witness fixture: an environment with a sound control plane, a cached
pod-setting whose application raises, and a namespace-setting that exists,
exercising the caught step 5 failure. -/
def envFoundOk : ApiEnv := ⟨trivialMatchers, .ok [psFailC3], fun _ => .found baseNss⟩

/-- Fixture: a non-dry-run request carrying a pod with one container. -/
def reqTeamA : AdmissionRequest := ⟨"uid-8", "team-a", false, podOneContainer⟩

/-! Lemmas and claim theorems. -/

theorem injectStep_envFrom (nss : NamespaceSetting) (ps : PodSettingSpec) :
    (injectStep nss ps).envFrom = ps.envFrom := by
  unfold injectStep; split <;> rfl

theorem injectStep_lifecycle (nss : NamespaceSetting) (ps : PodSettingSpec) :
    (injectStep nss ps).lifecycle = ps.lifecycle := by
  unfold injectStep; split <;> rfl

theorem injectStep_containerSelector (nss : NamespaceSetting) (ps : PodSettingSpec) :
    (injectStep nss ps).containerSelector = ps.containerSelector := by
  unfold injectStep; split <;> rfl

theorem injectStep_injectUserContext (nss : NamespaceSetting) (ps : PodSettingSpec) :
    (injectStep nss ps).injectUserContext = ps.injectUserContext := by
  unfold injectStep; split <;> rfl

theorem injectStep_of_no_flag (nss : NamespaceSetting) (ps : PodSettingSpec)
    (h : ps.injectUserContext.getD false = false) : injectStep nss ps = ps := by
  unfold injectStep
  simp [h]

theorem injectStep_idem (nss : NamespaceSetting) (ps : PodSettingSpec) :
    injectStep nss (injectStep nss ps) = injectStep nss ps := by
  unfold injectStep
  obtain ⟨sel, csel, sa, lb, an, nsl, sc, vol, img, ipp, lc, cmd, ar, env, ef, vm, iuc⟩ := ps
  by_cases h : iuc.getD false = false
  · simp [h]
  · simp only [h]
    simp only [Option.getD] at h ⊢
    cases iuc with
    | none => simp at h
    | some b =>
      cases b with
      | false => simp at h
      | true =>
        simp only [if_true, List.filter_append]
        congr 1
        simp [List.filter_filter, List.filter_cons]

theorem applyC_eq_ok (nss : NamespaceSetting) (ps : PodSettingSpec) (c : Container)
    (h : (injectStep nss ps).envFrom = none) :
    apply_settings_to_container nss ps c =
      ⟨injectStep nss ps, contMerge (injectStep nss ps) c, none⟩ := by
  show mergeEnvFromAndVolumeMounts _ (mergeEnv _ (mergeScalars _ c)) = _
  generalize injectStep nss ps = p at h ⊢
  obtain ⟨sel, csel, sa, lb, an, nsl, sc, vol, img, ipp, lc, cmd, ar, env, ef, vm, iuc⟩ := p
  simp only at h
  subst h
  cases img <;> cases ipp <;> cases lc <;> cases cmd <;> cases ar <;> cases env <;>
    cases vm <;> rfl

theorem applyC_eq_err (nss : NamespaceSetting) (ps : PodSettingSpec) (c : Container)
    (h1 : (injectStep nss ps).envFrom.isSome) (h2 : c.envFrom = none) :
    apply_settings_to_container nss ps c =
      ⟨injectStep nss ps, contMergeNoVM (injectStep nss ps) c, some "KeyError: envFrom"⟩ := by
  show mergeEnvFromAndVolumeMounts _ (mergeEnv _ (mergeScalars _ c)) = _
  generalize injectStep nss ps = p at h1 ⊢
  obtain ⟨sel, csel, sa, lb, an, nsl, sc, vol, img, ipp, lc, cmd, ar, env, ef, vm, iuc⟩ := p
  obtain ⟨cn, ci, cip, clc, ccm, car, cenv, cef, cvm⟩ := c
  simp only at h1 h2
  subst h2
  cases ef with
  | none => simp at h1
  | some efs =>
    cases img <;> cases ipp <;> cases lc <;> cases cmd <;> cases ar <;> cases env <;> rfl

/-- C1: the claim states that filter_pod_settings keeps a pod-setting only
if every matchLabels entry and every matchExpressions entry of its
podSelector is satisfied by the pod label map.  The code keeps the
pod-setting regardless: at the failing input below the pod has no labels,
the podSelector requires app = ml, the intended selector semantics rejects
it, yet the setting is returned.  The inner continue statements of the
source never exclude a setting from the outer loop. -/
theorem C1_filter_keeps_unsatisfied_selector :
    filter_pod_settings [psSettingC1] "team-a" basePod = [psSettingC1] ∧
      selectorMatches psSettingC1.spec.podSelector (basePod.metadata.labels.getD []) = false := by
  decide

/-- C2 counterexample: a client exception raised by the namespace-setting
lookup (step 3) escapes process_request instead of being converted to an
allow response, refuting the claim that every exception in steps 3 to 6 is
caught inside process_request. -/
theorem C2_counterexample :
    process_request envBadLookup (some []) reqC2 = .error "boom" := by
  rfl

/-- C3 counterexample: with two selected pod-settings of which the first
raises while being applied, the loop stops: the applied list holds only the
first setting and the label merge of the second setting never reaches the
pod, refuting the claim that remaining pod-settings are still applied. -/
theorem C3_counterexample :
    (applySettingsLoop trivialMatchers baseNss [psFailC3, psSecondC3] podOneContainer).2 =
        ["s1"] ∧
      dictLookup
        (((applySettingsLoop trivialMatchers baseNss [psFailC3, psSecondC3]
              podOneContainer).1).metadata.labels.getD []) "s2lab" = none := by
  decide

/-- C4 counterexample: applying a pod-setting with an envFrom override twice
appends the envFrom entries twice, so the document after the second
application differs from the document after the first, refuting the claimed
idempotence. -/
theorem C4_counterexample :
    (apply_settings_to_pod trivialMatchers baseNss
        (apply_settings_to_pod trivialMatchers baseNss psC4 podC4).ps
        (apply_settings_to_pod trivialMatchers baseNss psC4 podC4).pod).pod ≠
      (apply_settings_to_pod trivialMatchers baseNss psC4 podC4).pod := by
  decide

/-- C5 counterexample: applying a pod-setting with injectUserContext set
rewrites the env list of the pod-setting document itself, so the cached
document is not read-only, refuting the claim. -/
theorem C5_counterexample :
    (apply_settings_to_container baseNss psC5 baseContainer).ps ≠ psC5 := by
  decide

/-- C6 counterexample: a pod-setting whose env override holds two entries
named A leaves the merged container env with two entries of the same name,
refuting the claim that the merged name-keyed fields are duplicate-free. -/
theorem C6_counterexample :
    ¬ ((((apply_settings_to_pod trivialMatchers baseNss psC6
            podOneContainer).pod.spec.containers.headD baseContainer).env.getD []).map
          EnvVar.name).Nodup := by
  decide

/-- C9: the response built by get_response always carries allowed equal to
true and echoes the uid; with a non-empty patch it carries the base64
encoding of the serialized patch, but under the key patchtype in all lower
case: the claimed patchType key is absent, contradicting the documented
admission-review interface. -/
theorem C9_patchtype_key_is_lowercase :
    respLookup (get_response "uid-1" (some patchC9)) "allowed" = some (.b true) ∧
      respLookup (get_response "uid-1" (some patchC9)) "uid" = some (.s "uid-1") ∧
      respLookup (get_response "uid-1" (some patchC9)) "patch" =
        some (.s (b64encode (patchToString patchC9))) ∧
      respLookup (get_response "uid-1" (some patchC9)) "patchtype" =
        some (.s "JSONPatch") ∧
      respLookup (get_response "uid-1" (some patchC9)) "patchType" = none := by
  exact ⟨rfl, rfl, rfl, rfl, rfl⟩

/-- C10: whenever the pod-setting spec holds an envFrom field and the
selected container document lacks the envFrom key, the container merge
raises a KeyError: the envFrom extend is the only container merge reading a
container field without a default. -/
theorem C10_envFrom_raises_keyerror (nss : NamespaceSetting) (ps : PodSettingSpec)
    (c : Container) (h1 : ps.envFrom.isSome) (h2 : c.envFrom = none) :
    (apply_settings_to_container nss ps c).err = some "KeyError: envFrom" := by
  have h1i : (injectStep nss ps).envFrom.isSome := by rw [injectStep_envFrom]; exact h1
  rw [applyC_eq_err nss ps c h1i h2]

/-- C10 witness: the hypotheses hold at a concrete pod-setting and
container, and the application indeed reports the KeyError. -/
theorem C10_envFrom_raises_keyerror_witness :
    psC4.envFrom.isSome ∧ baseContainer.envFrom = none ∧
      (apply_settings_to_container baseNss psC4 baseContainer).err =
        some "KeyError: envFrom" :=
  ⟨by decide, by decide, C10_envFrom_raises_keyerror baseNss psC4 baseContainer
    (by decide) (by decide)⟩

theorem get_response_allowed (uid : String) (patch : Option (List PatchOp)) :
    respLookup (get_response uid patch) "allowed" = some (.b true) := by
  unfold get_response
  cases patch with
  | none => rfl
  | some ops => by_cases h : ops.isEmpty <;> simp [h, respLookup]

theorem after_cache_allows (env : ApiEnv) (cache2 : Option (List PodSetting))
    (psl : List PodSetting) (eff : List Effect) (req : AdmissionRequest) (pod : Pod)
    (h2 : ∀ msg, env.nsLookup req.namespaceName ≠ .apiError msg) :
    ∃ r, process_request.process_request_after_cache env cache2 psl eff req pod = .ok r ∧
      respLookup r.response "allowed" = some (.b true) := by
  unfold process_request.process_request_after_cache
  cases hns : env.nsLookup req.namespaceName with
  | found s =>
    have hg : get_namespace_setting env req.namespaceName = .ok (some s) := by
      unfold get_namespace_setting; rw [hns]
    rw [hg]
    refine ⟨_, rfl, ?_⟩
    exact get_response_allowed req.uid (some (from_diff pod
      (applySettingsLoop env.matchers s (filter_pod_settings psl s.team pod) pod).1))
  | notFound =>
    have hg : get_namespace_setting env req.namespaceName = .ok none := by
      unfold get_namespace_setting; rw [hns]
    rw [hg]
    refine ⟨_, rfl, ?_⟩
    exact get_response_allowed req.uid none
  | apiError m => exact absurd hns (h2 m)

/-- C2 amended: with a sound control plane (the pod-setting list call
returns and the namespace-setting lookup does not raise a client exception
other than NotFoundError) process_request always returns a response, and
that response has allowed equal to true, whatever happens inside the
pod-setting apply loop: step 5 failures are caught and never surface and
the engine never answers allowed false.  Control-plane failures of steps 2
and 3, by contrast, escape (see the counterexample). -/
theorem C2_sound_control_plane_always_allows (env : ApiEnv)
    (cache : Option (List PodSetting)) (req : AdmissionRequest) (psl : List PodSetting)
    (h1 : env.podSettingsResult = .ok psl)
    (h2 : ∀ msg, env.nsLookup req.namespaceName ≠ .apiError msg) :
    ∃ r, process_request env cache req = .ok r ∧
      respLookup r.response "allowed" = some (.b true) := by
  unfold process_request
  cases hdry : req.dryRun with
  | true =>
    simp only [if_true]
    refine ⟨_, rfl, ?_⟩
    exact get_response_allowed req.uid none
  | false =>
    simp only [Bool.false_eq_true, if_false]
    cases cache with
    | some psl2 => exact after_cache_allows env _ psl2 [] req req.object h2
    | none =>
      have hg : get_pod_settings env = .ok psl := h1
      rw [hg]
      exact after_cache_allows env _ psl [.fetchPodSettings] req req.object h2

/-- C2 witness: the amended theorem applied at a concrete environment whose
only cached pod-setting raises during application; the request is still
answered with allowed true. -/
theorem C2_sound_control_plane_always_allows_witness :
    envFoundOk.podSettingsResult = .ok [psFailC3] ∧
      (∀ msg, envFoundOk.nsLookup reqTeamA.namespaceName ≠ .apiError msg) ∧
      ∃ r, process_request envFoundOk none reqTeamA = .ok r ∧
        respLookup r.response "allowed" = some (.b true) :=
  ⟨rfl, fun _ h => by simp [envFoundOk] at h,
    C2_sound_control_plane_always_allows envFoundOk none reqTeamA [psFailC3] rfl
      (fun _ h => by simp [envFoundOk] at h)⟩

/-- C3 amended: when applying the first pod-setting of the selected list
raises, the except clause that catches the exception sits outside the loop,
so the loop ends there: the result keeps the partial modifications of the
failing setting and none of the remaining pod-settings is applied. -/
theorem C3_error_aborts_remaining_settings (m : Matchers) (nss : NamespaceSetting)
    (s : PodSetting) (rest : List PodSetting) (pod : Pod) (e : String)
    (h : (apply_settings_to_pod m nss s.spec pod).err = some e) :
    applySettingsLoop m nss (s :: rest) pod =
      ((apply_settings_to_pod m nss s.spec pod).pod, [s.name]) := by
  unfold applySettingsLoop
  simp only [h]

/-- C3 witness: concrete instance where the first of two settings raises
and the loop output drops the second setting. -/
theorem C3_error_aborts_remaining_settings_witness :
    (apply_settings_to_pod trivialMatchers baseNss psFailC3.spec podOneContainer).err =
        some "KeyError: envFrom" ∧
      applySettingsLoop trivialMatchers baseNss [psFailC3, psSecondC3] podOneContainer =
        ((apply_settings_to_pod trivialMatchers baseNss psFailC3.spec podOneContainer).pod,
          [psFailC3.name]) :=
  ⟨by decide, C3_error_aborts_remaining_settings trivialMatchers baseNss psFailC3
    [psSecondC3] podOneContainer "KeyError: envFrom" (by decide)⟩

/-- C7: a dry-run request is answered allow with no patch, the cache is
left untouched and no effect (no pod-setting list fetch, no
namespace-setting lookup) is performed. -/
theorem C7_dryrun_allows_without_side_effects (env : ApiEnv)
    (cache : Option (List PodSetting)) (req : AdmissionRequest) (h : req.dryRun = true) :
    process_request env cache req = .ok ⟨get_response req.uid none, cache, []⟩ ∧
      respLookup (get_response req.uid none) "allowed" = some (.b true) ∧
      respLookup (get_response req.uid none) "patch" = none := by
  unfold process_request
  rw [h]
  exact ⟨rfl, rfl, rfl⟩

/-- C7 witness: the dry-run theorem applied at a concrete request. -/
theorem C7_dryrun_allows_without_side_effects_witness :
    reqDry.dryRun = true ∧
      process_request envNotFound (some []) reqDry =
        .ok ⟨get_response reqDry.uid none, some [], []⟩ :=
  ⟨rfl, (C7_dryrun_allows_without_side_effects envNotFound (some []) reqDry rfl).1⟩

/-- C8: a non-dry-run request whose namespace has no NamespaceSetting in
the fixed system namespace is answered allow with no patch, and no
pod-setting application effect is performed. -/
theorem C8_lookup_miss_allows_without_apply (env : ApiEnv)
    (cache : Option (List PodSetting)) (req : AdmissionRequest) (psl : List PodSetting)
    (hdry : req.dryRun = false)
    (hfetch : env.podSettingsResult = .ok psl)
    (hns : env.nsLookup req.namespaceName = .notFound) :
    ∃ c2 eff, process_request env cache req = .ok ⟨get_response req.uid none, c2, eff⟩ ∧
      (∀ n, Effect.applySetting n ∉ eff) ∧
      respLookup (get_response req.uid none) "patch" = none := by
  have hg : get_namespace_setting env req.namespaceName = .ok none := by
    unfold get_namespace_setting; rw [hns]
  unfold process_request
  rw [hdry]
  simp only [Bool.false_eq_true, if_false]
  cases cache with
  | some l =>
    refine ⟨some l,
      [Effect.lookupNamespaceSetting ORBIT_SYSTEM_NAMESPACE req.namespaceName], ?_, ?_, rfl⟩
    · unfold process_request.process_request_after_cache
      rw [hg]
      rfl
    · intro n hmem
      simp at hmem
  | none =>
    rw [show get_pod_settings env = .ok psl from hfetch]
    refine ⟨some psl,
      [Effect.fetchPodSettings,
        Effect.lookupNamespaceSetting ORBIT_SYSTEM_NAMESPACE req.namespaceName], ?_, ?_, rfl⟩
    · unfold process_request.process_request_after_cache
      rw [hg]
      rfl
    · intro n hmem
      simp at hmem

/-- C8 witness: the lookup-miss theorem applied at a concrete environment
and request. -/
theorem C8_lookup_miss_allows_without_apply_witness :
    reqTeamA.dryRun = false ∧ envNotFound.podSettingsResult = .ok [] ∧
      envNotFound.nsLookup reqTeamA.namespaceName = .notFound ∧
      ∃ c2 eff, process_request envNotFound none reqTeamA =
          .ok ⟨get_response reqTeamA.uid none, c2, eff⟩ ∧
        (∀ n, Effect.applySetting n ∉ eff) ∧
        respLookup (get_response reqTeamA.uid none) "patch" = none :=
  ⟨rfl, rfl, rfl,
    C8_lookup_miss_allows_without_apply envNotFound none reqTeamA [] rfl rfl rfl⟩

theorem applyC_ps (nss : NamespaceSetting) (ps : PodSettingSpec) (c : Container) :
    (apply_settings_to_container nss ps c).ps = injectStep nss ps := by
  show (mergeEnvFromAndVolumeMounts _ _).ps = _
  generalize injectStep nss ps = p
  unfold mergeEnvFromAndVolumeMounts
  split
  · split <;> rfl
  · rfl

theorem applyToContainers_ps_stable (nss : NamespaceSetting) (ps : PodSettingSpec)
    (pred : Container → Bool) (cs : List Container) (h : injectStep nss ps = ps) :
    (applyToContainers nss ps pred cs).ps = ps := by
  induction cs with
  | nil => rfl
  | cons c rest ih =>
    have hr : (apply_settings_to_container nss ps c).ps = ps := by
      rw [applyC_ps, h]
    unfold applyToContainers
    cases hc : pred c with
    | false =>
      simp only [hc, Bool.false_eq_true, if_false]
      exact ih
    | true =>
      simp only [hc, if_true]
      cases he : (apply_settings_to_container nss ps c).err with
      | some e =>
        simp only [he]
        exact hr
      | none =>
        simp only [he, hr]
        exact ih

/-- C5 amended: when injectUserContext is false or absent the pod-setting
document is left unchanged by an application; the counterexample shows the
injectUserContext branch rewrites it. -/
theorem C5_no_inject_leaves_setting_unchanged (m : Matchers) (nss : NamespaceSetting)
    (ps : PodSettingSpec) (pod : Pod) (h : ps.injectUserContext.getD false = false) :
    (apply_settings_to_pod m nss ps pod).ps = ps := by
  have hst : injectStep nss ps = ps := injectStep_of_no_flag nss ps h
  simp only [apply_settings_to_pod]
  split
  · exact applyToContainers_ps_stable nss ps _ _ hst
  · rw [applyToContainers_ps_stable nss ps _ _ hst]
    exact applyToContainers_ps_stable nss ps _ _ hst

/-- C5 witness: a pod-setting without the injectUserContext flag is
returned unchanged by a concrete application. -/
theorem C5_no_inject_leaves_setting_unchanged_witness :
    psSecondC3.spec.injectUserContext.getD false = false ∧
      (apply_settings_to_pod trivialMatchers baseNss psSecondC3.spec basePod).ps =
        psSecondC3.spec :=
  ⟨by decide, C5_no_inject_leaves_setting_unchanged trivialMatchers baseNss
    psSecondC3.spec basePod (by decide)⟩

theorem dictLookup_cons (p : String × String) (rest : List (String × String)) (k : String) :
    dictLookup (p :: rest) k = if p.1 == k then some p.2 else dictLookup rest k := by
  unfold dictLookup
  cases h : (p.1 == k) <;> simp [List.find?_cons, h]

theorem dictLookup_isSome_iff (m : List (String × String)) (k : String) :
    (dictLookup m k).isSome ↔ k ∈ m.map Prod.fst := by
  induction m with
  | nil => simp [dictLookup]
  | cons p rest ih =>
    rw [dictLookup_cons]
    by_cases h : p.1 = k
    · simp [h]
    · have hb : (p.1 == k) = false := by simp [h]
      simp only [hb, Bool.false_eq_true, if_false, List.map_cons, List.mem_cons]
      rw [ih]
      constructor
      · exact fun hk => .inr hk
      · rintro (rfl | hk)
        · exact absurd rfl h
        · exact hk

theorem dictLookup_eq_of_mem_nodup {b : List (String × String)} {p : String × String}
    (hb : WFMap b) (hp : p ∈ b) : dictLookup b p.1 = some p.2 := by
  induction b with
  | nil => cases hp
  | cons q rest ih =>
    rw [dictLookup_cons]
    rcases List.mem_cons.mp hp with rfl | hmem
    · simp
    · have hkq : q.1 ≠ p.1 := by
        intro he
        have : q.1 ∈ rest.map Prod.fst := by
          rw [he]
          exact List.mem_map_of_mem Prod.fst hmem
        exact (List.nodup_cons.mp hb).1 this
      have hb2 : WFMap rest := (List.nodup_cons.mp hb).2
      simp only [show (q.1 == p.1) = false by simp [hkq], Bool.false_eq_true, if_false]
      exact ih hb2 hmem

theorem dictUpd_fst (b : List (String × String)) (p : String × String) :
    (dictUpd b p).1 = p.1 := by
  unfold dictUpd
  cases dictLookup b p.1 <;> rfl

theorem dictUpd_idem (b : List (String × String)) (p : String × String) :
    dictUpd b (dictUpd b p) = dictUpd b p := by
  unfold dictUpd
  cases hv : dictLookup b p.1 with
  | none => simp [hv]
  | some v => simp [hv]

theorem dictUpd_eq_of_mem {b : List (String × String)} {p : String × String}
    (hb : WFMap b) (hp : p ∈ b) : dictUpd b p = p := by
  unfold dictUpd
  rw [dictLookup_eq_of_mem_nodup hb hp]

theorem dictMerge_keys (a b : List (String × String)) :
    (dictMerge a b).map Prod.fst =
      a.map Prod.fst ++ (b.filter (fun p => (dictLookup a p.1).isNone)).map Prod.fst := by
  unfold dictMerge
  rw [List.map_append, List.map_map]
  congr 1
  exact List.map_congr_left (fun p _ => dictUpd_fst b p)

theorem dictMerge_idem (a b : List (String × String)) (hb : WFMap b) :
    dictMerge (dictMerge a b) b = dictMerge a b := by
  have hmap : (dictMerge a b).map (dictUpd b) = dictMerge a b := by
    unfold dictMerge
    rw [List.map_append, List.map_map]
    congr 1
    · exact List.map_congr_left (fun p _ => dictUpd_idem b p)
    · have hid : ∀ p ∈ b.filter (fun p => (dictLookup a p.1).isNone), dictUpd b p = p :=
        fun p hp => dictUpd_eq_of_mem hb (List.mem_filter.mp hp).1
      exact (List.map_congr_left hid).trans (List.map_id _)
  have hfilter : b.filter (fun p => (dictLookup (dictMerge a b) p.1).isNone) = [] := by
    rw [List.filter_eq_nil_iff]
    intro p hp hisnone
    have hsome : (dictLookup (dictMerge a b) p.1).isSome := by
      rw [dictLookup_isSome_iff, dictMerge_keys]
      rcases hka : dictLookup a p.1 with _ | v
      · refine List.mem_append.mpr (.inr ?_)
        refine List.mem_map.mpr ⟨p, List.mem_filter.mpr ⟨hp, ?_⟩, rfl⟩
        simp [hka]
      · refine List.mem_append.mpr (.inl ?_)
        have hs : (dictLookup a p.1).isSome := by simp [hka]
        exact (dictLookup_isSome_iff a p.1).mp hs
    rw [Option.isNone_iff_eq_none] at hisnone
    rw [hisnone] at hsome
    simp at hsome
  conv_lhs => rw [dictMerge]
  rw [hmap, hfilter, List.append_nil]

theorem nameMerge_idem {α : Type} (name : α → String) (old new : List α) :
    nameMerge name (nameMerge name old new) new = nameMerge name old new := by
  have h2 : new.filter (fun x => !(new.map name).contains (name x)) = [] := by
    rw [List.filter_eq_nil_iff]
    intro x hx hcontra
    have hm : name x ∈ new.map name := List.mem_map_of_mem name hx
    simp [hm] at hcontra
  unfold nameMerge
  congr 1
  rw [List.filter_append, List.filter_filter]
  simp only [Bool.and_self]
  rw [h2, List.append_nil]

theorem nameMerge_nodup {α : Type} (name : α → String) (old new : List α)
    (hold : (old.map name).Nodup) (hnew : (new.map name).Nodup) :
    ((nameMerge name old new).map name).Nodup := by
  unfold nameMerge
  rw [List.map_append]
  refine List.Nodup.append ?_ hnew ?_
  · exact List.Nodup.sublist ((List.filter_sublist old).map name) hold
  · intro a ha hb
    obtain ⟨x, hx, rfl⟩ := List.mem_map.mp ha
    have hxf := (List.mem_filter.mp hx).2
    simp [hb] at hxf

theorem injectStep_env_nodup (nss : NamespaceSetting) (ps : PodSettingSpec)
    (h : ((ps.env.getD []).map EnvVar.name).Nodup) :
    (((injectStep nss ps).env.getD []).map EnvVar.name).Nodup := by
  unfold injectStep
  split
  · simp only [Option.getD_some]
    rw [List.map_append]
    refine List.Nodup.append ?_ ?_ ?_
    · exact List.Nodup.sublist ((List.filter_sublist _).map EnvVar.name) h
    · simp
    · intro a ha hb
      obtain ⟨x, hx, rfl⟩ := List.mem_map.mp ha
      have hxf := (List.mem_filter.mp hx).2
      simp at hxf hb
      rcases hb with hb | hb <;> simp [hb] at hxf
  · exact h

theorem contMerge_name (ps : PodSettingSpec) (c : Container) :
    (contMerge ps c).name = c.name := rfl

theorem contMerge_idem (ps : PodSettingSpec) (c : Container)
    (hlc : WFMap (ps.lifecycle.getD [])) :
    contMerge ps (contMerge ps c) = contMerge ps c := by
  unfold contMerge
  simp only [Container.mk.injEq]
  refine ⟨trivial, ?_, ?_, ?_, ?_, ?_, ?_, trivial, ?_⟩
  · cases ps.image <;> rfl
  · cases ps.imagePullPolicy <;> rfl
  · cases hl : ps.lifecycle with
    | none => rfl
    | some l =>
      rw [hl] at hlc
      simp only [Option.getD_some] at hlc
      simp only [Option.getD_some]
      rw [dictMerge_idem _ _ hlc]
  · cases ps.command <;> rfl
  · cases ps.args <;> rfl
  · cases ps.env with
    | none => rfl
    | some es =>
      simp only [Option.getD_some]
      rw [nameMerge_idem]
  · cases ps.volumeMounts with
    | none => rfl
    | some vms =>
      simp only [Option.getD_some]
      rw [nameMerge_idem]

theorem podLevelMerge_eq (ps : PodSettingSpec) (pod : Pod) :
    podLevelMerge ps pod = podMergeChar ps pod := by
  obtain ⟨sel, csel, sa, lb, an, nsl, sc, vol, img, ipp, lc, cmd, ar, env, ef, vm, iuc⟩ := ps
  cases sa <;> cases lb <;> cases an <;> cases nsl <;> cases sc <;> cases vol <;> rfl

theorem podMergeChar_idem (ps : PodSettingSpec) (pod : Pod)
    (hlb : WFMap (ps.labels.getD [])) (han : WFMap (ps.annotations.getD []))
    (hns : WFMap (ps.nodeSelector.getD [])) (hsc : WFMap (ps.securityContext.getD [])) :
    podMergeChar ps (podMergeChar ps pod) = podMergeChar ps pod := by
  unfold podMergeChar
  simp only [Pod.mk.injEq, PodMetadata.mk.injEq, PodSpec.mk.injEq]
  refine ⟨⟨?_, ?_⟩, ?_, ?_, ?_, ?_, trivial, trivial⟩
  · cases hl : ps.labels with
    | none => rfl
    | some l =>
      rw [hl] at hlb
      simp only [Option.getD_some] at hlb
      simp only [Option.getD_some]
      rw [dictMerge_idem _ _ hlb]
  · cases hl : ps.annotations with
    | none => rfl
    | some l =>
      rw [hl] at han
      simp only [Option.getD_some] at han
      simp only [Option.getD_some]
      rw [dictMerge_idem _ _ han]
  · cases ps.serviceAccountName <;> rfl
  · cases hl : ps.nodeSelector with
    | none => rfl
    | some l =>
      rw [hl] at hns
      simp only [Option.getD_some] at hns
      simp only [Option.getD_some]
      rw [dictMerge_idem _ _ hns]
  · cases hl : ps.securityContext with
    | none => rfl
    | some l =>
      rw [hl] at hsc
      simp only [Option.getD_some] at hsc
      simp only [Option.getD_some]
      rw [dictMerge_idem _ _ hsc]
  · cases ps.volumes with
    | none => rfl
    | some vs =>
      simp only [Option.getD_some]
      rw [nameMerge_idem]

theorem podMergeChar_inject (nss : NamespaceSetting) (ps : PodSettingSpec) (pod : Pod) :
    podMergeChar (injectStep nss ps) pod = podMergeChar ps pod := by
  unfold injectStep
  split <;> rfl

theorem podMergeChar_lists (ps : PodSettingSpec) (pod : Pod)
    (ics cs : List Container) :
    podMergeChar ps { pod with spec := { pod.spec with initContainers := ics, containers := cs } } =
      { podMergeChar ps pod with spec :=
          { (podMergeChar ps pod).spec with initContainers := ics, containers := cs } } := rfl

theorem containerPred_contMerge (m : Matchers) (jp : String → List String)
    (sel : Option ContainerSelector) (p : PodSettingSpec) (c : Container) :
    containerPred m jp sel (contMerge p c) = containerPred m jp sel c := by
  cases sel with
  | none => rfl
  | some s => cases s <;> rfl

theorem containerPred_nameBased (m : Matchers) (jp1 jp2 : String → List String)
    (sel : Option ContainerSelector) (h : ∀ e, sel ≠ some (.jsonpathSel e)) :
    containerPred m jp1 sel = containerPred m jp2 sel := by
  cases sel with
  | none => rfl
  | some s =>
    cases s with
    | regexSel pat => rfl
    | jsonpathSel e => exact absurd rfl (h e)

theorem applyToContainers_eq (nss : NamespaceSetting) (p : PodSettingSpec)
    (hpef : p.envFrom = none) (pred : Container → Bool) (cs : List Container) :
    ∀ q : PodSettingSpec, injectStep nss q = p →
      applyToContainers nss q pred cs =
        ⟨if cs.any pred then p else q,
          cs.map (fun c => if pred c then contMerge p c else c), none⟩ := by
  induction cs with
  | nil =>
    intro q _
    simp [applyToContainers]
  | cons c rest ih =>
    intro q hq
    have hp : injectStep nss p = p := by rw [← hq]; exact injectStep_idem nss q
    have hC : apply_settings_to_container nss q c = ⟨p, contMerge p c, none⟩ := by
      have h0 := applyC_eq_ok nss q c (by rw [hq]; exact hpef)
      rw [hq] at h0
      exact h0
    unfold applyToContainers
    cases hc : pred c with
    | false =>
      simp only [hc, Bool.false_eq_true, if_false]
      rw [ih q hq]
      simp [hc]
    | true =>
      simp only [hc, if_true, hC]
      rw [ih p hp]
      simp [hc]

theorem applyPod_char (m : Matchers) (nss : NamespaceSetting) (q : PodSettingSpec)
    (pod : Pod) (p : PodSettingSpec) (hq : injectStep nss q = p) (hpef : p.envFrom = none)
    (hsel : ∀ e, q.containerSelector ≠ some (.jsonpathSel e)) :
    apply_settings_to_pod m nss q pod =
      ⟨if (podMergeChar q pod).spec.containers.any
            (containerPred m (fun _ => []) q.containerSelector) then p
        else if (podMergeChar q pod).spec.initContainers.any
            (containerPred m (fun _ => []) q.containerSelector) then p else q,
        { podMergeChar q pod with spec := { (podMergeChar q pod).spec with
            initContainers := (podMergeChar q pod).spec.initContainers.map
              (fun c => if containerPred m (fun _ => []) q.containerSelector c then
                contMerge p c else c),
            containers := (podMergeChar q pod).spec.containers.map
              (fun c => if containerPred m (fun _ => []) q.containerSelector c then
                contMerge p c else c) } },
        none⟩ := by
  have hp : injectStep nss p = p := by rw [← hq]; exact injectStep_idem nss q
  have hpredSpec : ∀ doc : PodSpec,
      containerPred m (fun e => m.jpFindSpec e doc) q.containerSelector =
        containerPred m (fun _ => []) q.containerSelector :=
    fun _ => containerPred_nameBased _ _ _ _ hsel
  have hpredPod : ∀ doc : Pod,
      containerPred m (fun e => m.jpFindPod e doc) q.containerSelector =
        containerPred m (fun _ => []) q.containerSelector :=
    fun _ => containerPred_nameBased _ _ _ _ hsel
  simp only [apply_settings_to_pod, podLevelMerge_eq, hpredSpec, hpredPod]
  rw [applyToContainers_eq nss p hpef _ _ q hq]
  cases hb1 : (podMergeChar q pod).spec.initContainers.any
      (containerPred m (fun _ => []) q.containerSelector) with
  | false =>
    simp only [hb1, Bool.false_eq_true, if_false]
    rw [applyToContainers_eq nss p hpef _ _ q hq]
  | true =>
    simp only [hb1, if_true]
    rw [applyToContainers_eq nss p hpef _ _ p hp]

theorem any_map_ite (cs : List Container) (pred : Container → Bool)
    (g : Container → Container) (hg : ∀ c, pred (g c) = pred c) :
    (cs.map (fun c => if pred c then g c else c)).any pred = cs.any pred := by
  rw [List.any_map]
  congr 1
  funext c
  cases hc : pred c <;> simp [Function.comp, hc, hg]

theorem map_ite_idem (cs : List Container) (pred : Container → Bool)
    (g : Container → Container) (hg : ∀ c, pred (g c) = pred c)
    (hgg : ∀ c, g (g c) = g c) :
    (cs.map (fun c => if pred c then g c else c)).map
        (fun c => if pred c then g c else c) =
      cs.map (fun c => if pred c then g c else c) := by
  rw [List.map_map]
  congr 1
  funext c
  cases hc : pred c <;> simp [Function.comp, hc, hg, hgg]

theorem applyPod_fixedpoint (m : Matchers) (nss : NamespaceSetting)
    (q' p : PodSettingSpec) (P2 : Pod)
    (hq' : injectStep nss q' = p) (hpef : p.envFrom = none)
    (hsel' : ∀ e, q'.containerSelector ≠ some (.jsonpathSel e))
    (hA : podMergeChar q' P2 = P2)
    (hI : P2.spec.initContainers.map
        (fun c => if containerPred m (fun _ => []) q'.containerSelector c then
          contMerge p c else c) = P2.spec.initContainers)
    (hC : P2.spec.containers.map
        (fun c => if containerPred m (fun _ => []) q'.containerSelector c then
          contMerge p c else c) = P2.spec.containers)
    (hval : (if P2.spec.containers.any (containerPred m (fun _ => []) q'.containerSelector)
        then p
        else if P2.spec.initContainers.any
            (containerPred m (fun _ => []) q'.containerSelector) then p else q') = q') :
    apply_settings_to_pod m nss q' P2 = ⟨q', P2, none⟩ := by
  rw [applyPod_char m nss q' P2 p hq' hpef hsel', hA, hI, hC, hval]

/-- C4 amended: applying the same pod-setting twice in succession (the
second run reuses the possibly mutated setting, as the source passes the
same object again) is idempotent on the pod document provided the setting
carries no envFrom override (the envFrom extend appends without dedup), its
container selector is name-based (absent or regex; a jsonpath selector is
re-evaluated against the mutated document), and its override maps hold
unique keys as Python dictionaries do. -/
theorem C4_no_envfrom_namebased_idempotent (m : Matchers) (nss : NamespaceSetting)
    (ps : PodSettingSpec) (pod : Pod)
    (hef : ps.envFrom = none)
    (hsel : ∀ e, ps.containerSelector ≠ some (.jsonpathSel e))
    (hlc : WFMap (ps.lifecycle.getD []))
    (hlb : WFMap (ps.labels.getD []))
    (han : WFMap (ps.annotations.getD []))
    (hns : WFMap (ps.nodeSelector.getD []))
    (hsc : WFMap (ps.securityContext.getD [])) :
    apply_settings_to_pod m nss (apply_settings_to_pod m nss ps pod).ps
        (apply_settings_to_pod m nss ps pod).pod =
      ⟨(apply_settings_to_pod m nss ps pod).ps, (apply_settings_to_pod m nss ps pod).pod,
        none⟩ := by
  set p := injectStep nss ps with hpdef
  have hqp : injectStep nss ps = p := hpdef.symm
  have hpef : p.envFrom = none := by rw [hpdef, injectStep_envFrom]; exact hef
  have hpidem : injectStep nss p = p := by rw [hpdef]; exact injectStep_idem nss ps
  have hpsel : p.containerSelector = ps.containerSelector := by
    rw [hpdef]; exact injectStep_containerSelector nss ps
  have hplc : WFMap (p.lifecycle.getD []) := by rw [hpdef, injectStep_lifecycle]; exact hlc
  have hg : ∀ c, containerPred m (fun _ => []) ps.containerSelector (contMerge p c) =
      containerPred m (fun _ => []) ps.containerSelector c :=
    fun c => containerPred_contMerge m (fun _ => []) ps.containerSelector p c
  have hgg : ∀ c, contMerge p (contMerge p c) = contMerge p c :=
    fun c => contMerge_idem p c hplc
  have hselp : ∀ e, p.containerSelector ≠ some (.jsonpathSel e) := by
    intro e
    rw [hpsel]
    exact hsel e
  have hAmid : ∀ P2 : Pod, podMergeChar ps P2 = P2 →
      ∀ q' : PodSettingSpec, q' = p ∨ q' = ps → podMergeChar q' P2 = P2 := by
    intro P2 hbase q' hq'
    rcases hq' with rfl | rfl
    · rw [hpdef, podMergeChar_inject]
      exact hbase
    · exact hbase
  rw [applyPod_char m nss ps pod p hqp hpef hsel]
  have hA0 : podMergeChar ps
      { podMergeChar ps pod with spec := { (podMergeChar ps pod).spec with
          initContainers := (podMergeChar ps pod).spec.initContainers.map
            (fun c => if containerPred m (fun _ => []) ps.containerSelector c then
              contMerge p c else c),
          containers := (podMergeChar ps pod).spec.containers.map
            (fun c => if containerPred m (fun _ => []) ps.containerSelector c then
              contMerge p c else c) } } =
      { podMergeChar ps pod with spec := { (podMergeChar ps pod).spec with
          initContainers := (podMergeChar ps pod).spec.initContainers.map
            (fun c => if containerPred m (fun _ => []) ps.containerSelector c then
              contMerge p c else c),
          containers := (podMergeChar ps pod).spec.containers.map
            (fun c => if containerPred m (fun _ => []) ps.containerSelector c then
              contMerge p c else c) } } := by
    rw [podMergeChar_lists, podMergeChar_idem ps pod hlb han hns hsc]
  cases hb2 : (podMergeChar ps pod).spec.containers.any
      (containerPred m (fun _ => []) ps.containerSelector) with
  | true =>
    simp only [hb2, if_true]
    refine applyPod_fixedpoint m nss p p _ hpidem hpef hselp ?_ ?_ ?_ ?_
    · exact hAmid _ hA0 p (.inl rfl)
    · rw [hpsel]
      exact map_ite_idem _ _ _ hg hgg
    · rw [hpsel]
      exact map_ite_idem _ _ _ hg hgg
    · rw [hpsel]
      cases (((podMergeChar ps pod).spec.containers.map
          (fun c => if containerPred m (fun _ => []) ps.containerSelector c then
            contMerge p c else c)).any (containerPred m (fun _ => []) ps.containerSelector)) <;>
        simp
  | false =>
    simp only [hb2, Bool.false_eq_true, if_false]
    cases hb1 : (podMergeChar ps pod).spec.initContainers.any
        (containerPred m (fun _ => []) ps.containerSelector) with
    | true =>
      simp only [hb1, if_true]
      refine applyPod_fixedpoint m nss p p _ hpidem hpef hselp ?_ ?_ ?_ ?_
      · exact hAmid _ hA0 p (.inl rfl)
      · rw [hpsel]
        exact map_ite_idem _ _ _ hg hgg
      · rw [hpsel]
        exact map_ite_idem _ _ _ hg hgg
      · rw [hpsel]
        cases (((podMergeChar ps pod).spec.containers.map
            (fun c => if containerPred m (fun _ => []) ps.containerSelector c then
              contMerge p c else c)).any
            (containerPred m (fun _ => []) ps.containerSelector)) <;> simp
    | false =>
      simp only [hb1, Bool.false_eq_true, if_false]
      refine applyPod_fixedpoint m nss ps p _ hqp hpef hsel ?_ ?_ ?_ ?_
      · exact hAmid _ hA0 ps (.inr rfl)
      · exact map_ite_idem _ _ _ hg hgg
      · exact map_ite_idem _ _ _ hg hgg
      · rw [show (({ podMergeChar ps pod with spec := { (podMergeChar ps pod).spec with
            initContainers := (podMergeChar ps pod).spec.initContainers.map
              (fun c => if containerPred m (fun _ => []) ps.containerSelector c then
                contMerge p c else c),
            containers := (podMergeChar ps pod).spec.containers.map
              (fun c => if containerPred m (fun _ => []) ps.containerSelector c then
                contMerge p c else c) } } : Pod).spec.containers.any
            (containerPred m (fun _ => []) ps.containerSelector)) =
            ((podMergeChar ps pod).spec.containers.map
              (fun c => if containerPred m (fun _ => []) ps.containerSelector c then
                contMerge p c else c)).any
              (containerPred m (fun _ => []) ps.containerSelector) from rfl]
        rw [any_map_ite _ _ _ hg, hb2]
        simp only [Bool.false_eq_true, if_false]
        rw [show (({ podMergeChar ps pod with spec := { (podMergeChar ps pod).spec with
            initContainers := (podMergeChar ps pod).spec.initContainers.map
              (fun c => if containerPred m (fun _ => []) ps.containerSelector c then
                contMerge p c else c),
            containers := (podMergeChar ps pod).spec.containers.map
              (fun c => if containerPred m (fun _ => []) ps.containerSelector c then
                contMerge p c else c) } } : Pod).spec.initContainers.any
            (containerPred m (fun _ => []) ps.containerSelector)) =
            ((podMergeChar ps pod).spec.initContainers.map
              (fun c => if containerPred m (fun _ => []) ps.containerSelector c then
                contMerge p c else c)).any
              (containerPred m (fun _ => []) ps.containerSelector) from rfl]
        rw [any_map_ite _ _ _ hg, hb1]
        simp

/-- C4 witness: the amended idempotence theorem applied at a concrete
pod-setting (regex match-all selector, env override, no envFrom) and a
one-container pod. -/
theorem C4_no_envfrom_namebased_idempotent_witness :
    psC6.envFrom = none ∧
      (∀ e, psC6.containerSelector ≠ some (.jsonpathSel e)) ∧
      WFMap (psC6.lifecycle.getD []) ∧
      apply_settings_to_pod trivialMatchers baseNss
          (apply_settings_to_pod trivialMatchers baseNss psC6 podOneContainer).ps
          (apply_settings_to_pod trivialMatchers baseNss psC6 podOneContainer).pod =
        ⟨(apply_settings_to_pod trivialMatchers baseNss psC6 podOneContainer).ps,
          (apply_settings_to_pod trivialMatchers baseNss psC6 podOneContainer).pod,
          none⟩ := by
  have hsel : ∀ e, psC6.containerSelector ≠ some (.jsonpathSel e) := by
    intro e h
    simp [psC6, basePodSettingSpec] at h
  refine ⟨by decide, hsel, ?_, ?_⟩
  · unfold WFMap
    decide
  · exact C4_no_envfrom_namebased_idempotent trivialMatchers baseNss psC6 podOneContainer
      (by decide) hsel (by unfold WFMap; decide) (by unfold WFMap; decide)
      (by unfold WFMap; decide) (by unfold WFMap; decide) (by unfold WFMap; decide)

theorem injectStep_volumeMounts (nss : NamespaceSetting) (ps : PodSettingSpec) :
    (injectStep nss ps).volumeMounts = ps.volumeMounts := by
  unfold injectStep; split <;> rfl

theorem mergeScalars_env (ps : PodSettingSpec) (c : Container) :
    (mergeScalars ps c).env = c.env := by
  obtain ⟨sel, csel, sa, lb, an, nsl, sc, vol, img, ipp, lc, cmd, ar, env, ef, vm, iuc⟩ := ps
  cases img <;> cases ipp <;> cases lc <;> cases cmd <;> cases ar <;> rfl

theorem mergeScalars_envFrom (ps : PodSettingSpec) (c : Container) :
    (mergeScalars ps c).envFrom = c.envFrom := by
  obtain ⟨sel, csel, sa, lb, an, nsl, sc, vol, img, ipp, lc, cmd, ar, env, ef, vm, iuc⟩ := ps
  cases img <;> cases ipp <;> cases lc <;> cases cmd <;> cases ar <;> rfl

theorem mergeScalars_volumeMounts (ps : PodSettingSpec) (c : Container) :
    (mergeScalars ps c).volumeMounts = c.volumeMounts := by
  obtain ⟨sel, csel, sa, lb, an, nsl, sc, vol, img, ipp, lc, cmd, ar, env, ef, vm, iuc⟩ := ps
  cases img <;> cases ipp <;> cases lc <;> cases cmd <;> cases ar <;> rfl

theorem mergeEnv_env (ps : PodSettingSpec) (c : Container) :
    (mergeEnv ps c).env = match ps.env with
      | some es => some (nameMerge EnvVar.name (c.env.getD []) es)
      | none => c.env := by
  unfold mergeEnv
  cases ps.env <;> rfl

theorem mergeEnv_envFrom (ps : PodSettingSpec) (c : Container) :
    (mergeEnv ps c).envFrom = c.envFrom := by
  unfold mergeEnv
  cases ps.env <;> rfl

theorem mergeEnv_volumeMounts (ps : PodSettingSpec) (c : Container) :
    (mergeEnv ps c).volumeMounts = c.volumeMounts := by
  unfold mergeEnv
  cases ps.env <;> rfl

theorem mergeEFVM_container_env (p : PodSettingSpec) (x : Container) :
    (mergeEnvFromAndVolumeMounts p x).container.env = x.env := by
  unfold mergeEnvFromAndVolumeMounts mergeVolumeMounts
  cases hef : p.envFrom <;> cases hxef : x.envFrom <;> cases hvm : p.volumeMounts <;>
    simp [hef, hxef, hvm]

theorem mergeEFVM_container_vm (p : PodSettingSpec) (x : Container) :
    (mergeEnvFromAndVolumeMounts p x).container.volumeMounts = x.volumeMounts ∨
      (mergeEnvFromAndVolumeMounts p x).container.volumeMounts =
        some (nameMerge NamedItem.name (x.volumeMounts.getD []) (p.volumeMounts.getD [])) := by
  unfold mergeEnvFromAndVolumeMounts mergeVolumeMounts
  cases hef : p.envFrom <;> cases hxef : x.envFrom <;> cases hvm : p.volumeMounts <;>
    simp [hef, hxef, hvm]

theorem applyC_container_env (nss : NamespaceSetting) (ps : PodSettingSpec) (c : Container) :
    (apply_settings_to_container nss ps c).container.env =
      match (injectStep nss ps).env with
      | some es => some (nameMerge EnvVar.name (c.env.getD []) es)
      | none => c.env := by
  show (mergeEnvFromAndVolumeMounts _ (mergeEnv _ (mergeScalars _ c))).container.env = _
  generalize injectStep nss ps = p
  rw [mergeEFVM_container_env, mergeEnv_env, mergeScalars_env]

theorem applyC_container_vm (nss : NamespaceSetting) (ps : PodSettingSpec) (c : Container) :
    (apply_settings_to_container nss ps c).container.volumeMounts = c.volumeMounts ∨
      (apply_settings_to_container nss ps c).container.volumeMounts =
        some (nameMerge NamedItem.name (c.volumeMounts.getD [])
          ((injectStep nss ps).volumeMounts.getD [])) := by
  have key := mergeEFVM_container_vm (injectStep nss ps)
    (mergeEnv (injectStep nss ps) (mergeScalars (injectStep nss ps) c))
  rw [mergeEnv_volumeMounts, mergeScalars_volumeMounts] at key
  exact key

theorem applyC_env_nodup (nss : NamespaceSetting) (q : PodSettingSpec) (c : Container)
    (hq : ((q.env.getD []).map EnvVar.name).Nodup)
    (hc : ((c.env.getD []).map EnvVar.name).Nodup) :
    ((((apply_settings_to_container nss q c).container.env).getD []).map EnvVar.name).Nodup := by
  rw [applyC_container_env]
  have hq2 := injectStep_env_nodup nss q hq
  cases hpe : (injectStep nss q).env with
  | none => exact hc
  | some es =>
    rw [hpe] at hq2
    simp only [Option.getD_some] at hq2 ⊢
    exact nameMerge_nodup _ _ _ hc hq2

theorem applyC_vm_nodup (nss : NamespaceSetting) (q : PodSettingSpec) (c : Container)
    (hq : ((q.volumeMounts.getD []).map NamedItem.name).Nodup)
    (hc : ((c.volumeMounts.getD []).map NamedItem.name).Nodup) :
    ((((apply_settings_to_container nss q c).container.volumeMounts).getD []).map
      NamedItem.name).Nodup := by
  rcases applyC_container_vm nss q c with h | h
  · rw [h]
    exact hc
  · rw [h]
    simp only [Option.getD_some]
    have hq2 : (((injectStep nss q).volumeMounts.getD []).map NamedItem.name).Nodup := by
      rw [injectStep_volumeMounts]
      exact hq
    exact nameMerge_nodup _ _ _ hc hq2

theorem applyToContainers_mem (nss : NamespaceSetting) (pred : Container → Bool)
    (cs : List Container) :
    ∀ q : PodSettingSpec, ∀ c' ∈ (applyToContainers nss q pred cs).containers,
      c' ∈ cs ∨ ∃ c ∈ cs, c' = (apply_settings_to_container nss q c).container ∨
        c' = (apply_settings_to_container nss (injectStep nss q) c).container := by
  induction cs with
  | nil =>
    intro q c' h
    cases h
  | cons c rest ih =>
    intro q c' hmem
    unfold applyToContainers at hmem
    by_cases hc : pred c = true
    · simp only [hc, if_true] at hmem
      cases he : (apply_settings_to_container nss q c).err with
      | some e =>
        simp only [he] at hmem
        rcases List.mem_cons.mp hmem with rfl | htail
        · exact .inr ⟨c, List.mem_cons_self c rest, .inl rfl⟩
        · exact .inl (List.mem_cons_of_mem c htail)
      | none =>
        simp only [he] at hmem
        rcases List.mem_cons.mp hmem with rfl | htail
        · exact .inr ⟨c, List.mem_cons_self c rest, .inl rfl⟩
        · rcases ih ((apply_settings_to_container nss q c).ps) c' htail with h | ⟨c0, hc0, h | h⟩
          · exact .inl (List.mem_cons_of_mem c h)
          · rw [applyC_ps] at h
            exact .inr ⟨c0, List.mem_cons_of_mem c hc0, .inr h⟩
          · rw [applyC_ps, injectStep_idem] at h
            exact .inr ⟨c0, List.mem_cons_of_mem c hc0, .inr h⟩
    · simp only [if_neg hc] at hmem
      rcases List.mem_cons.mp hmem with rfl | htail
      · exact .inl (List.mem_cons_self c' rest)
      · rcases ih q c' htail with h | ⟨c0, hc0, h⟩
        · exact .inl (List.mem_cons_of_mem c h)
        · exact .inr ⟨c0, List.mem_cons_of_mem c hc0, h⟩

theorem applyToContainers_ps_cases (nss : NamespaceSetting) (pred : Container → Bool)
    (cs : List Container) :
    ∀ q : PodSettingSpec, (applyToContainers nss q pred cs).ps = q ∨
      (applyToContainers nss q pred cs).ps = injectStep nss q := by
  induction cs with
  | nil =>
    intro q
    exact .inl rfl
  | cons c rest ih =>
    intro q
    unfold applyToContainers
    by_cases hc : pred c = true
    · simp only [hc, if_true]
      cases he : (apply_settings_to_container nss q c).err with
      | some e =>
        simp only [he]
        exact .inr (applyC_ps nss q c)
      | none =>
        simp only [he]
        rcases ih ((apply_settings_to_container nss q c).ps) with h | h
        · right
          rw [h, applyC_ps]
        · right
          rw [h, applyC_ps, injectStep_idem]
    · simp only [if_neg hc]
      exact ih q

theorem applyToContainers_nodup (nss : NamespaceSetting) (q : PodSettingSpec)
    (pred : Container → Bool) (cs : List Container)
    (hqe : ((q.env.getD []).map EnvVar.name).Nodup)
    (hqm : ((q.volumeMounts.getD []).map NamedItem.name).Nodup)
    (hcs : ∀ c ∈ cs, ((c.env.getD []).map EnvVar.name).Nodup ∧
      ((c.volumeMounts.getD []).map NamedItem.name).Nodup) :
    ∀ c' ∈ (applyToContainers nss q pred cs).containers,
      ((c'.env.getD []).map EnvVar.name).Nodup ∧
        ((c'.volumeMounts.getD []).map NamedItem.name).Nodup := by
  intro c' hmem
  rcases applyToContainers_mem nss pred cs q c' hmem with h | ⟨c, hcmem, h | h⟩
  · exact hcs c' h
  · subst h
    exact ⟨applyC_env_nodup nss q c hqe (hcs c hcmem).1,
      applyC_vm_nodup nss q c hqm (hcs c hcmem).2⟩
  · subst h
    have hqe2 := injectStep_env_nodup nss q hqe
    have hqm2 : (((injectStep nss q).volumeMounts.getD []).map NamedItem.name).Nodup := by
      rw [injectStep_volumeMounts]
      exact hqm
    exact ⟨applyC_env_nodup nss (injectStep nss q) c hqe2 (hcs c hcmem).1,
      applyC_vm_nodup nss (injectStep nss q) c hqm2 (hcs c hcmem).2⟩

/-- C6 amended: applying a pod-setting leaves no duplicate names in the
name-keyed fields (pod volumes, container env, container volumeMounts)
provided the incoming pod-setting lists and the original pod and container
lists are themselves duplicate-free; the counterexample shows a duplicated
incoming list survives the merge. -/
theorem C6_merge_leaves_no_duplicate_names (m : Matchers) (nss : NamespaceSetting)
    (ps : PodSettingSpec) (pod : Pod)
    (hpe : ((ps.env.getD []).map EnvVar.name).Nodup)
    (hpv : ((ps.volumes.getD []).map NamedItem.name).Nodup)
    (hpm : ((ps.volumeMounts.getD []).map NamedItem.name).Nodup)
    (hv : ((pod.spec.volumes.getD []).map NamedItem.name).Nodup)
    (hconts : ∀ c ∈ pod.spec.containers, ((c.env.getD []).map EnvVar.name).Nodup ∧
      ((c.volumeMounts.getD []).map NamedItem.name).Nodup)
    (hinits : ∀ c ∈ pod.spec.initContainers, ((c.env.getD []).map EnvVar.name).Nodup ∧
      ((c.volumeMounts.getD []).map NamedItem.name).Nodup) :
    (((apply_settings_to_pod m nss ps pod).pod.spec.volumes.getD []).map
        NamedItem.name).Nodup ∧
      (∀ c ∈ (apply_settings_to_pod m nss ps pod).pod.spec.containers,
        ((c.env.getD []).map EnvVar.name).Nodup ∧
          ((c.volumeMounts.getD []).map NamedItem.name).Nodup) ∧
      (∀ c ∈ (apply_settings_to_pod m nss ps pod).pod.spec.initContainers,
        ((c.env.getD []).map EnvVar.name).Nodup ∧
          ((c.volumeMounts.getD []).map NamedItem.name).Nodup) := by
  have hvol2 : (((podMergeChar ps pod).spec.volumes.getD []).map NamedItem.name).Nodup := by
    show (List.map NamedItem.name ((match ps.volumes with
      | some vs => some (nameMerge NamedItem.name (pod.spec.volumes.getD []) vs)
      | none => pod.spec.volumes).getD [])).Nodup
    cases hpvv : ps.volumes with
    | none => exact hv
    | some vs =>
      rw [hpvv] at hpv
      simp only [Option.getD_some] at hpv ⊢
      exact nameMerge_nodup _ _ _ hv hpv
  refine ⟨?_, ?_, ?_⟩
  · simp only [apply_settings_to_pod, podLevelMerge_eq]
    split
    · exact hvol2
    · exact hvol2
  · simp only [apply_settings_to_pod, podLevelMerge_eq]
    split
    · intro c hc
      exact hconts c hc
    · intro c hc
      rcases applyToContainers_ps_cases nss
          (containerPred m (fun e => m.jpFindSpec e (podMergeChar ps pod).spec)
            ps.containerSelector)
          (podMergeChar ps pod).spec.initContainers ps with h | h
      · rw [h] at hc
        exact applyToContainers_nodup nss ps _ _ hpe hpm hconts c hc
      · rw [h] at hc
        have hqe2 := injectStep_env_nodup nss ps hpe
        have hqm2 : (((injectStep nss ps).volumeMounts.getD []).map NamedItem.name).Nodup := by
          rw [injectStep_volumeMounts]
          exact hpm
        exact applyToContainers_nodup nss (injectStep nss ps) _ _ hqe2 hqm2 hconts c hc
  · simp only [apply_settings_to_pod, podLevelMerge_eq]
    split
    · intro c hc
      exact applyToContainers_nodup nss ps _ _ hpe hpm hinits c hc
    · intro c hc
      exact applyToContainers_nodup nss ps _ _ hpe hpm hinits c hc

/-- C6 witness: the duplicate-freedom theorem applied at a concrete
pod-setting and one-container pod whose name-keyed inputs are
duplicate-free. -/
theorem C6_merge_leaves_no_duplicate_names_witness :
    ((psFailC3.spec.env.getD []).map EnvVar.name).Nodup ∧
      (∀ c ∈ podOneContainer.spec.containers,
        ((c.env.getD []).map EnvVar.name).Nodup ∧
          ((c.volumeMounts.getD []).map NamedItem.name).Nodup) ∧
      (((apply_settings_to_pod trivialMatchers baseNss psFailC3.spec
          podOneContainer).pod.spec.volumes.getD []).map NamedItem.name).Nodup ∧
      (∀ c ∈ (apply_settings_to_pod trivialMatchers baseNss psFailC3.spec
          podOneContainer).pod.spec.containers,
        ((c.env.getD []).map EnvVar.name).Nodup ∧
          ((c.volumeMounts.getD []).map NamedItem.name).Nodup) := by
  have h := C6_merge_leaves_no_duplicate_names trivialMatchers baseNss psFailC3.spec
    podOneContainer (by decide) (by decide) (by decide) (by decide) (by decide) (by decide)
  exact ⟨by decide, by decide, h.1, h.2.1⟩
